import Mathlib

/-!
Shallow embedding of the lsusb USB device lister (src/lsusb.py, src/defines.py).

Strings from the Python program are modelled as lists of characters.
The Python builtin `int(s, 16)` is modelled by `pythonIntHex`, restricted to
ASCII input (device paths are ASCII): surrounding whitespace is stripped, an
optional sign and an optional "0x"/"0X" base marker are accepted, and the
digit run may contain single underscores strictly between digits (one extra
underscore is allowed directly after the base marker), as CPython accepts.
A `none` result models a raised ValueError.
-/

/-- Whitespace characters stripped by Python int parsing (ASCII fragment):
space, tab, newline, carriage return, vertical tab, form feed. -/
def pyWs (c : Char) : Bool :=
  c.toNat = 32 || c.toNat = 9 || c.toNat = 10 || c.toNat = 13 || c.toNat = 11 || c.toNat = 12

/-- Hexadecimal digit characters: 0-9, a-f, A-F. -/
def isHexDigit (c : Char) : Bool :=
  (48 ≤ c.toNat && c.toNat ≤ 57) || (97 ≤ c.toNat && c.toNat ≤ 102) ||
    (65 ≤ c.toNat && c.toNat ≤ 70)

/-- Numeric value of a hexadecimal digit character. -/
def hexVal (c : Char) : Nat :=
  if c.toNat ≤ 57 then c.toNat - 48
  else if c.toNat ≤ 70 then c.toNat - 55
  else c.toNat - 87

/-- Value of a run of hexadecimal digits, most significant first. -/
def hexNat (l : List Char) : Nat :=
  l.foldl (fun a c => 16 * a + hexVal c) 0

/-- Recogniser for the digit run of a hexadecimal literal: one or more hex
digits with single underscores strictly between digits.  The flag records
whether the previous character was a digit (so an underscore is allowed). -/
def hexBodyAux : Bool → List Char → Bool
  | afterDigit, [] => afterDigit
  | afterDigit, c :: rest =>
      if c = '_' then afterDigit && hexBodyAux false rest
      else isHexDigit c && hexBodyAux true rest

/-- A valid digit run: nonempty, digits with single underscores between. -/
def hexBody (l : List Char) : Bool := hexBodyAux false l

/-- Value of a valid digit run, ignoring the underscores. -/
def hexBodyVal (l : List Char) : Nat :=
  hexNat (l.filter (fun c => !(c == '_')))

/-- Strip leading and trailing Python whitespace. -/
def stripWs (l : List Char) : List Char :=
  ((l.dropWhile pyWs).reverse.dropWhile pyWs).reverse

/-- Drop a leading sign character, when present. -/
def afterSign (l : List Char) : List Char :=
  if l.head? = some '-' ∨ l.head? = some '+' then l.tail else l

/-- Sign factor: -1 for a leading minus, otherwise 1. -/
def signOf (l : List Char) : Int :=
  if l.head? = some '-' then -1 else 1

/-- Drop a leading "0x"/"0X" base marker, when present, together with the
single underscore CPython allows directly after the marker. -/
def afterPrefix0x (l : List Char) : List Char :=
  if l.take 2 = ['0', 'x'] ∨ l.take 2 = ['0', 'X'] then
    (if (l.drop 2).head? = some '_' then (l.drop 2).tail else l.drop 2)
  else l

/-- The digit run of a candidate hexadecimal literal. -/
def pyBody (l : List Char) : List Char :=
  afterPrefix0x (afterSign (stripWs l))

/-- Model of the Python builtin int(s, 16) on ASCII strings; `none` models a
raised ValueError. -/
def pythonIntHex (l : List Char) : Option Int :=
  if hexBody (pyBody l) then
    some (signOf (stripWs l) * (hexBodyVal (pyBody l) : Int))
  else none

/-- Model of Python str.find: index of the first occurrence of the pattern,
`none` for the -1 failure result.  Auxiliary recursion carrying the index. -/
def findSubAux (pat : List Char) : List Char → Nat → Option Nat
  | [], i => if pat.isPrefixOf ([] : List Char) then some i else none
  | c :: rest, i =>
      if pat.isPrefixOf (c :: rest) then some i else findSubAux pat rest (i + 1)

/-- Index of the first occurrence of `pat` in `l` (Python str.find). -/
def findSub (l pat : List Char) : Option Nat := findSubAux pat l 0

/-- Python slicing l[a:b] for a ≤ b (out-of-range indices are clipped). -/
def pySlice (l : List Char) (a b : Nat) : List Char := (l.take b).drop a

/-- The marker preceding the vendor id in a device path. -/
def vidMarker : List Char := ['v', 'i', 'd', '_']

/-- The marker preceding the product id in a device path. -/
def pidMarker : List Char := ['p', 'i', 'd', '_']

/-- Model of extract_ids (src/lsusb.py:107-116): find the markers; if either
is absent return the sentinel (0, 0); otherwise parse the 4 characters after
each marker with int(-, 16).  `none` models a ValueError escaping the call. -/
def extract_ids (path : List Char) : Option (Int × Int) :=
  match findSub path vidMarker, findSub path pidMarker with
  | some vpos, some ppos =>
      match pythonIntHex (pySlice path (vpos + 4) (vpos + 8)),
            pythonIntHex (pySlice path (ppos + 4) (ppos + 8)) with
      | some vid, some pid => some (vid, pid)
      | _, _ => none
  | _, _ => some (0, 0)

/-- A device identity: the (vendor id, product id) pair. -/
abbrev DevId := Int × Int

/-- The two lists computed by print_diff (src/lsusb.py:87-98).  The source
prints them; the model returns them (printing has no further effect). -/
structure DiffResult where
  added : List DevId
  removed : List DevId

/-- Model of print_diff (src/lsusb.py:87-98): removed is the sublist of old
whose members are not in new, added is the sublist of new whose members are
not in old, both by the Python membership test `in`. -/
def print_diff (old new : List DevId) : DiffResult :=
  { added := new.filter (fun dev => !(decide (dev ∈ old))),
    removed := old.filter (fun dev => !(decide (dev ∈ new))) }

/-- Outcome the OS produces for one index of the enumeration loop:
either SetupDiEnumDeviceInterfaces succeeds at this index and the sized
SetupDiGetDeviceInterfaceDetailW call yields a device path (`ok (some p)`) or
fails (`ok none`), or SetupDiEnumDeviceInterfaces fails with an error code
(`err code`; code 259 = 0x103 is ERROR_NO_MORE_ITEMS). -/
inductive EnumOutcome where
  | ok (detail : Option (List Char))
  | err (code : Nat)

/-- Behaviour of the OS during one call of get_dev_list: whether
SetupDiGetClassDevsW returns a non-null handle, and the per-index outcomes.
An exhausted script means the OS reports ERROR_NO_MORE_ITEMS (devices are
finite, so enumeration always ends). -/
structure OsEnv where
  openOk : Bool
  script : List EnumOutcome

/-- Error messages get_dev_list can print, one per print site
(src/lsusb.py:134, 149, 172). -/
inductive ErrMsg where
  | openFail
  | enumFail (code : Nat)
  | detailFail
deriving DecidableEq

/-- The while loop of get_dev_list (src/lsusb.py:137-177).  Break paths
return the devices collected so far together with the error message printed,
mirroring the three break sites; a ValueError raised by extract_ids on a
malformed path propagates out as `Except.error`. -/
def enumLoop : List EnumOutcome → List DevId → Except Unit (List DevId × List ErrMsg)
  | [], acc => Except.ok (acc, [])
  | EnumOutcome.err code :: _, acc =>
      Except.ok (acc, if code = 259 then [] else [ErrMsg.enumFail code])
  | EnumOutcome.ok none :: _, acc => Except.ok (acc, [ErrMsg.detailFail])
  | EnumOutcome.ok (some path) :: rest, acc =>
      match extract_ids path with
      | none => Except.error ()
      | some dev => enumLoop rest (acc ++ [dev])

/-- Observable result of one get_dev_list call: the returned list (or a
propagating exception), whether SetupDiDestroyDeviceInfoList was reached, and
the error messages printed. -/
structure EnumRun where
  result : Except Unit (List DevId)
  destroyed : Bool
  errors : List ErrMsg

/-- Model of get_dev_list (src/lsusb.py:118-181).  If the session handle is
null, print an error and return the empty list (no handle to destroy).
Otherwise run the loop; on normal loop exit the destroy call at line 180 is
reached, while a ValueError propagating from extract_ids at line 175 leaves
the function before line 180, so the handle is not destroyed. -/
def get_dev_list (env : OsEnv) : EnumRun :=
  if env.openOk then
    match enumLoop env.script [] with
    | Except.ok (devs, errs) =>
        { result := Except.ok devs, destroyed := true, errors := errs }
    | Except.error e =>
        { result := Except.error e, destroyed := false, errors := [] }
  else
    { result := Except.ok [], destroyed := false, errors := [ErrMsg.openFail] }

/-- One iteration of the tracking loop in main (src/lsusb.py:204-210): call
get_dev_list; if the new list differs from the retained one, report the diff
and retain the new list, otherwise do nothing.  A propagating exception ends
the loop (and the process), modelled as `Except.error`. -/
def trackStep (prev : List DevId) (env : OsEnv) :
    Except Unit (List DevId × Option DiffResult) :=
  match (get_dev_list env).result with
  | Except.error e => Except.error e
  | Except.ok new_list =>
      if new_list = prev then Except.ok (prev, none)
      else Except.ok (new_list, some (print_diff prev new_list))

/-- A well-formed device path carrying identity (0x46d, 0xc52b). -/
def pathGood : List Char := "\\\\?\\usb#vid_046D&pid_c52b#8&2f4a&0&3#".toList

/-- A device path whose vid digits are not hexadecimal: int raises. -/
def pathBad : List Char := "vid_zzzz&pid_0000".toList

/-- A device path with a minus sign after the vid marker: int accepts it. -/
def pathNeg : List Char := "vid_-fff&pid_0001".toList

/-- A device path for identity (1, 2). -/
def pathId12 : List Char := "usb#vid_0001&pid_0002#".toList

/-- A device path for identity (3, 4). -/
def pathId34 : List Char := "usb#vid_0003&pid_0004#".toList

/-- An environment whose session opens and whose single device has a
malformed path. -/
def envBad : OsEnv := { openOk := true, script := [EnumOutcome.ok (some pathBad)] }

/-- An environment whose session opens, with one well-formed device and then
a normal end of enumeration. -/
def envGood : OsEnv :=
  { openOk := true, script := [EnumOutcome.ok (some pathGood), EnumOutcome.err 259] }

/-- An environment whose session fails to open. -/
def envNoOpen : OsEnv := { openOk := false, script := [] }

/-- An environment enumerating identities (3, 4) then (1, 2). -/
def envSwapped : OsEnv :=
  { openOk := true,
    script := [EnumOutcome.ok (some pathId34), EnumOutcome.ok (some pathId12)] }


theorem isHexDigit_toNat {c : Char} (h : isHexDigit c = true) :
    (48 ≤ c.toNat ∧ c.toNat ≤ 57) ∨ (97 ≤ c.toNat ∧ c.toNat ≤ 102) ∨
      (65 ≤ c.toNat ∧ c.toNat ≤ 70) := by
  have h' : (48 ≤ c.toNat ∧ c.toNat ≤ 57 ∨ 97 ≤ c.toNat ∧ c.toNat ≤ 102) ∨
      65 ≤ c.toNat ∧ c.toNat ≤ 70 := by
    simpa [isHexDigit, Bool.or_eq_true, Bool.and_eq_true, decide_eq_true_iff] using h
  tauto

theorem hexDigit_not_ws {c : Char} (h : isHexDigit c = true) : pyWs c = false := by
  have h' := isHexDigit_toNat h
  rcases hw : pyWs c with _ | _
  · rfl
  · exfalso
    simp only [pyWs, Bool.or_eq_true, decide_eq_true_iff] at hw
    omega

theorem hexDigit_ne {c d : Char} (h : isHexDigit c = true)
    (hd : isHexDigit d = false) : c ≠ d := by
  intro he
  rw [he] at h
  rw [h] at hd
  exact absurd hd (by simp)

theorem hexVal_le {c : Char} (h : isHexDigit c = true) : hexVal c ≤ 15 := by
  have h' := isHexDigit_toNat h
  unfold hexVal
  split
  · omega
  · split <;> omega

theorem hexBodyAux_chars :
    ∀ (l : List Char) (b : Bool), hexBodyAux b l = true →
      ∀ c ∈ l, c = '_' ∨ isHexDigit c = true
  | [], _, _, c, hc => by cases hc
  | a :: rest, b, h, c, hc => by
    rw [hexBodyAux] at h
    cases hc with
    | head =>
      by_cases ha : a = '_'
      · exact Or.inl ha
      · rw [if_neg ha, Bool.and_eq_true] at h
        exact Or.inr h.1
    | tail _ hc =>
      by_cases ha : a = '_'
      · rw [if_pos ha, Bool.and_eq_true] at h
        exact hexBodyAux_chars rest false h.2 c hc
      · rw [if_neg ha, Bool.and_eq_true] at h
        exact hexBodyAux_chars rest true h.2 c hc

theorem hexBody_chars {l : List Char} (h : hexBody l = true) :
    ∀ c ∈ l, c = '_' ∨ isHexDigit c = true :=
  hexBodyAux_chars l false h

theorem hexNat_foldl_lt :
    ∀ (l : List Char) (a : Nat), (∀ c ∈ l, hexVal c ≤ 15) →
      l.foldl (fun a c => 16 * a + hexVal c) a < (a + 1) * 16 ^ l.length
  | [], a, _ => by simp
  | c :: rest, a, h => by
    have hc : hexVal c ≤ 15 := h c (by simp)
    have ih := hexNat_foldl_lt rest (16 * a + hexVal c)
      (fun d hd => h d (List.mem_cons_of_mem c hd))
    calc (c :: rest).foldl (fun a c => 16 * a + hexVal c) a
        = rest.foldl (fun a c => 16 * a + hexVal c) (16 * a + hexVal c) := by
          simp [List.foldl_cons]
      _ < (16 * a + hexVal c + 1) * 16 ^ rest.length := ih
      _ ≤ ((a + 1) * 16) * 16 ^ rest.length := by
          have : 16 * a + hexVal c + 1 ≤ (a + 1) * 16 := by omega
          exact Nat.mul_le_mul_right _ this
      _ = (a + 1) * 16 ^ (c :: rest).length := by
          rw [List.length_cons, Nat.pow_succ]
          ring

theorem hexNat_lt {l : List Char} (h : ∀ c ∈ l, hexVal c ≤ 15) :
    hexNat l < 16 ^ l.length := by
  have := hexNat_foldl_lt l 0 h
  simpa [hexNat] using this

theorem hexBodyVal_lt {l : List Char} (h : hexBody l = true) :
    hexBodyVal l < 16 ^ l.length := by
  have hmem : ∀ c ∈ l.filter (fun c => !(c == '_')), hexVal c ≤ 15 := by
    intro c hc
    have h12 := List.mem_filter.mp hc
    have h2 : (!(c == '_')) = true := h12.2
    rcases hexBody_chars h c h12.1 with h3 | h3
    · exfalso
      rw [h3] at h2
      simp at h2
    · exact hexVal_le h3
  have hlen : (l.filter (fun c => !(c == '_'))).length ≤ l.length :=
    (List.filter_sublist l).length_le
  calc hexBodyVal l < 16 ^ (l.filter (fun c => !(c == '_'))).length :=
        hexNat_lt hmem
    _ ≤ 16 ^ l.length := Nat.pow_le_pow_right (by omega) hlen

theorem length_dropWhile_le (p : Char → Bool) :
    ∀ l : List Char, (l.dropWhile p).length ≤ l.length
  | [] => by simp
  | c :: rest => by
    rw [List.dropWhile_cons]
    split
    · exact Nat.le_trans (length_dropWhile_le p rest) (by simp)
    · simp

theorem stripWs_length_le (l : List Char) : (stripWs l).length ≤ l.length := by
  unfold stripWs
  rw [List.length_reverse]
  calc ((l.dropWhile pyWs).reverse.dropWhile pyWs).length
      ≤ (l.dropWhile pyWs).reverse.length := length_dropWhile_le _ _
    _ = (l.dropWhile pyWs).length := List.length_reverse _
    _ ≤ l.length := length_dropWhile_le _ _

theorem afterPrefix0x_length_le (l : List Char) :
    (afterPrefix0x l).length ≤ l.length := by
  unfold afterPrefix0x
  split
  · split
    · simp [List.length_tail]
    · simp
  · exact Nat.le_refl _

theorem afterSign_length_le (l : List Char) : (afterSign l).length ≤ l.length := by
  unfold afterSign
  split
  · simp [List.length_tail]
  · exact Nat.le_refl _

theorem afterSign_length_of_sign {l : List Char}
    (h : l.head? = some '-' ∨ l.head? = some '+') :
    (afterSign l).length ≤ l.length - 1 := by
  unfold afterSign
  rw [if_pos h]
  simp [List.length_tail]

theorem pySlice_length_le (l : List Char) (a k : Nat) :
    (pySlice l a (a + k)).length ≤ k := by
  simp [pySlice, List.length_drop, List.length_take]
  omega

theorem pythonIntHex_bound {l : List Char} (hlen : l.length ≤ 4) {n : Int}
    (h : pythonIntHex l = some n) : -4095 ≤ n ∧ n ≤ 65535 := by
  unfold pythonIntHex at h
  split at h
  case isFalse => exact absurd h (by simp)
  case isTrue hbody =>
    have hval : hexBodyVal (pyBody l) < 16 ^ (pyBody l).length := hexBodyVal_lt hbody
    have hs : (stripWs l).length ≤ 4 := Nat.le_trans (stripWs_length_le l) hlen
    have hn : n = signOf (stripWs l) * (hexBodyVal (pyBody l) : Int) := by
      have := h
      simp only [Option.some.injEq] at this
      omega
    by_cases hsign : (stripWs l).head? = some '-'
    · have hsgn : signOf (stripWs l) = -1 := by
        unfold signOf
        rw [if_pos hsign]
      have hb : (pyBody l).length ≤ 3 := by
        have h1 : (afterSign (stripWs l)).length ≤ (stripWs l).length - 1 :=
          afterSign_length_of_sign (Or.inl hsign)
        have h2 := afterPrefix0x_length_le (afterSign (stripWs l))
        unfold pyBody
        omega
      have hv : hexBodyVal (pyBody l) < 4096 := by
        have h16 : (16 : Nat) ^ (pyBody l).length ≤ 16 ^ 3 :=
          Nat.pow_le_pow_right (by omega) hb
        have : (16 : Nat) ^ 3 = 4096 := by norm_num
        omega
      rw [hsgn] at hn
      constructor
      · have : (hexBodyVal (pyBody l) : Int) < 4096 := by exact_mod_cast hv
        omega
      · have : (0 : Int) ≤ (hexBodyVal (pyBody l) : Int) := Int.natCast_nonneg _
        omega
    · have hsgn : signOf (stripWs l) = 1 := by
        unfold signOf
        rw [if_neg hsign]
      have hb : (pyBody l).length ≤ 4 := by
        have h1 := afterSign_length_le (stripWs l)
        have h2 := afterPrefix0x_length_le (afterSign (stripWs l))
        unfold pyBody
        omega
      have hv : hexBodyVal (pyBody l) < 65536 := by
        have h16 : (16 : Nat) ^ (pyBody l).length ≤ 16 ^ 4 :=
          Nat.pow_le_pow_right (by omega) hb
        have : (16 : Nat) ^ 4 = 65536 := by norm_num
        omega
      rw [hsgn] at hn
      constructor
      · have : (0 : Int) ≤ (hexBodyVal (pyBody l) : Int) := Int.natCast_nonneg _
        omega
      · have : (hexBodyVal (pyBody l) : Int) < 65536 := by exact_mod_cast hv
        omega

theorem stripWs_hex4 {d1 d2 d3 d4 : Char} (h1 : isHexDigit d1 = true)
    (h4 : isHexDigit d4 = true) : stripWs [d1, d2, d3, d4] = [d1, d2, d3, d4] := by
  have w1 := hexDigit_not_ws h1
  have w4 := hexDigit_not_ws h4
  simp [stripWs, List.dropWhile_cons, w1, w4]

theorem pythonIntHex_hex4 {d1 d2 d3 d4 : Char} (h1 : isHexDigit d1 = true)
    (h2 : isHexDigit d2 = true) (h3 : isHexDigit d3 = true)
    (h4 : isHexDigit d4 = true) :
    pythonIntHex [d1, d2, d3, d4] = some ((hexNat [d1, d2, d3, d4] : Int)) := by
  have hne1m : d1 ≠ '-' := hexDigit_ne h1 (by decide)
  have hne1p : d1 ≠ '+' := hexDigit_ne h1 (by decide)
  have hne2x : d2 ≠ 'x' := hexDigit_ne h2 (by decide)
  have hne2X : d2 ≠ 'X' := hexDigit_ne h2 (by decide)
  have u1 : d1 ≠ '_' := hexDigit_ne h1 (by decide)
  have u2 : d2 ≠ '_' := hexDigit_ne h2 (by decide)
  have u3 : d3 ≠ '_' := hexDigit_ne h3 (by decide)
  have u4 : d4 ≠ '_' := hexDigit_ne h4 (by decide)
  have hstrip : stripWs [d1, d2, d3, d4] = [d1, d2, d3, d4] := stripWs_hex4 h1 h4
  have hsign : afterSign [d1, d2, d3, d4] = [d1, d2, d3, d4] := by
    unfold afterSign
    rw [if_neg]
    simp [hne1m, hne1p]
  have hpre : afterPrefix0x [d1, d2, d3, d4] = [d1, d2, d3, d4] := by
    unfold afterPrefix0x
    rw [if_neg]
    simp [hne2x, hne2X]
  have hbody : hexBody [d1, d2, d3, d4] = true := by
    simp [hexBody, hexBodyAux, u1, u2, u3, u4, h1, h2, h3, h4]
  have hsgn : signOf [d1, d2, d3, d4] = 1 := by
    unfold signOf
    rw [if_neg]
    simp [hne1m]
  have hfil : hexBodyVal [d1, d2, d3, d4] = hexNat [d1, d2, d3, d4] := by
    have b1 : (d1 == '_') = false := beq_eq_false_iff_ne.mpr u1
    have b2 : (d2 == '_') = false := beq_eq_false_iff_ne.mpr u2
    have b3 : (d3 == '_') = false := beq_eq_false_iff_ne.mpr u3
    have b4 : (d4 == '_') = false := beq_eq_false_iff_ne.mpr u4
    unfold hexBodyVal
    congr 1
    simp [List.filter, b1, b2, b3, b4]
  unfold pythonIntHex pyBody
  rw [hstrip, hsign, hpre, hbody, hsgn, hfil]
  simp

/-- C2: for every device path in which the marker "vid_" is located (by the
first-occurrence search of str.find) and is immediately followed by four
hexadecimal digit characters, upper or lower case, and likewise for "pid_",
extract_ids returns exactly the pair obtained by parsing those two
4-character substrings as base-16 unsigned integers. -/
theorem extract_ids_parses_hex_markers (l : List Char) (vpos ppos : Nat)
    (d1 d2 d3 d4 e1 e2 e3 e4 : Char)
    (hfv : findSub l vidMarker = some vpos)
    (hfp : findSub l pidMarker = some ppos)
    (hsv : pySlice l (vpos + 4) (vpos + 8) = [d1, d2, d3, d4])
    (hsp : pySlice l (ppos + 4) (ppos + 8) = [e1, e2, e3, e4])
    (hd1 : isHexDigit d1 = true) (hd2 : isHexDigit d2 = true)
    (hd3 : isHexDigit d3 = true) (hd4 : isHexDigit d4 = true)
    (he1 : isHexDigit e1 = true) (he2 : isHexDigit e2 = true)
    (he3 : isHexDigit e3 = true) (he4 : isHexDigit e4 = true) :
    extract_ids l =
      some ((hexNat [d1, d2, d3, d4] : Int), (hexNat [e1, e2, e3, e4] : Int)) := by
  unfold extract_ids
  rw [hfv, hfp]
  simp only [hsv, hsp, pythonIntHex_hex4 hd1 hd2 hd3 hd4,
    pythonIntHex_hex4 he1 he2 he3 he4]

/-- C2 witness: on the concrete path usb#vid_046D&pid_c52b#... the theorem
yields the identity (0x46d, 0xc52b), with mixed-case hex digits. -/
theorem extract_ids_parses_hex_markers_witness :
    findSub pathGood vidMarker = some 8 ∧
    findSub pathGood pidMarker = some 17 ∧
    extract_ids pathGood =
      some ((hexNat ['0', '4', '6', 'D'] : Int), (hexNat ['c', '5', '2', 'b'] : Int)) :=
  ⟨by decide, by decide,
    extract_ids_parses_hex_markers pathGood 8 17 '0' '4' '6' 'D' 'c' '5' '2' 'b'
      (by decide) (by decide) (by decide) (by decide) (by decide) (by decide)
      (by decide) (by decide) (by decide) (by decide) (by decide) (by decide)⟩

theorem extract_ids_sentinel_aux (l : List Char)
    (h : findSub l vidMarker = none ∨ findSub l pidMarker = none) :
    extract_ids l = some (0, 0) := by
  unfold extract_ids
  rcases h with h | h
  · rw [h]
  · rw [h]
    cases findSub l vidMarker <;> rfl

/-- C4: for every device path in which at least one of the markers "vid_"
and "pid_" does not occur, extract_ids returns the sentinel identity (0, 0)
and does not signal an error. -/
theorem extract_ids_missing_marker_sentinel (l : List Char)
    (h : findSub l vidMarker = none ∨ findSub l pidMarker = none) :
    extract_ids l = some (0, 0) :=
  extract_ids_sentinel_aux l h

/-- C4 witness: a path with no markers at all maps to the sentinel. -/
theorem extract_ids_missing_marker_sentinel_witness :
    findSub ("hello world".toList) vidMarker = none ∧
    extract_ids ("hello world".toList) = some (0, 0) :=
  ⟨by decide, extract_ids_missing_marker_sentinel ("hello world".toList)
    (Or.inl (by decide))⟩

theorem extract_ids_eq_found {l : List Char} {vpos ppos : Nat}
    (hfv : findSub l vidMarker = some vpos)
    (hfp : findSub l pidMarker = some ppos) :
    extract_ids l =
      match pythonIntHex (pySlice l (vpos + 4) (vpos + 8)),
            pythonIntHex (pySlice l (ppos + 4) (ppos + 8)) with
      | some vid, some pid => some (vid, pid)
      | _, _ => none := by
  unfold extract_ids
  rw [hfv, hfp]

/-- C5: for every device path containing both markers in which the
4-character substring after one of the located markers fails base-16
parsing, extract_ids signals the parse error (a ValueError propagating to
the caller, modelled as `none`), which is distinct from the sentinel result
some (0, 0) used for the marker-absent case. -/
theorem extract_ids_parse_failure_propagates (l : List Char) (vpos ppos : Nat)
    (hfv : findSub l vidMarker = some vpos)
    (hfp : findSub l pidMarker = some ppos)
    (h : pythonIntHex (pySlice l (vpos + 4) (vpos + 8)) = none ∨
         pythonIntHex (pySlice l (ppos + 4) (ppos + 8)) = none) :
    extract_ids l = none ∧ extract_ids l ≠ some (0, 0) := by
  have hmain : extract_ids l = none := by
    rw [extract_ids_eq_found hfv hfp]
    rcases h with h | h
    · rw [h]
    · rw [h]
      cases pythonIntHex (pySlice l (vpos + 4) (vpos + 8)) <;> rfl
  exact ⟨hmain, by rw [hmain]; intro hc; cases hc⟩

/-- C5 witness: the path vid_zzzz&pid_0000 contains both markers but the
vid substring rejects base-16 parsing, so the call signals the error. -/
theorem extract_ids_parse_failure_propagates_witness :
    pythonIntHex (pySlice pathBad 4 8) = none ∧
    extract_ids pathBad = none ∧ extract_ids pathBad ≠ some (0, 0) :=
  ⟨by decide, extract_ids_parse_failure_propagates pathBad 0 9
    (by decide) (by decide) (Or.inl (by decide))⟩

/-- C8 counterexample: the claim that both components always lie in
0..65535 fails: on the path vid_-fff&pid_0001, which Python parses because
int(s, 16) accepts a sign, extract_ids returns normally with the negative
first component -4095. -/
theorem extract_ids_negative_component :
    extract_ids pathNeg = some (-4095, 1) ∧ ((-4095 : Int) < 0) :=
  ⟨by decide, by decide⟩

/-- C8 amended: every identity returned normally by extract_ids has both
components in the range -4095..65535 (each parsed substring has at most 4
characters, at most one of which can be a sign). -/
theorem extract_ids_components_bounded (l : List Char) (v p : Int)
    (h : extract_ids l = some (v, p)) :
    (-4095 ≤ v ∧ v ≤ 65535) ∧ (-4095 ≤ p ∧ p ≤ 65535) := by
  cases hfv : findSub l vidMarker with
  | none =>
    unfold extract_ids at h
    rw [hfv] at h
    simp only [Option.some.injEq, Prod.mk.injEq] at h
    obtain ⟨hv, hp⟩ := h
    constructor <;> omega
  | some vpos =>
    cases hfp : findSub l pidMarker with
    | none =>
      have hs : extract_ids l = some (0, 0) :=
        extract_ids_sentinel_aux l (Or.inr hfp)
      rw [hs] at h
      simp only [Option.some.injEq, Prod.mk.injEq] at h
      obtain ⟨hv, hp⟩ := h
      constructor <;> omega
    | some ppos =>
      rw [extract_ids_eq_found hfv hfp] at h
      cases hv : pythonIntHex (pySlice l (vpos + 4) (vpos + 8)) with
      | none =>
        rw [hv] at h
        cases hp : pythonIntHex (pySlice l (ppos + 4) (ppos + 8)) <;>
          rw [hp] at h <;> cases h
      | some vid =>
        cases hp : pythonIntHex (pySlice l (ppos + 4) (ppos + 8)) with
        | none =>
          rw [hv, hp] at h
          cases h
        | some pid =>
          rw [hv, hp] at h
          simp only [Option.some.injEq, Prod.mk.injEq] at h
          obtain ⟨h1, h2⟩ := h
          subst h1
          subst h2
          have bv := pythonIntHex_bound (pySlice_length_le l (vpos + 4) 4) hv
          have bp := pythonIntHex_bound (pySlice_length_le l (ppos + 4) 4) hp
          exact ⟨bv, bp⟩

/-- C8 amended witness: on a well-formed path the bounds hold for the
returned identity (0x46d, 0xc52b). -/
theorem extract_ids_components_bounded_witness :
    extract_ids pathGood = some (0x46d, 0xc52b) ∧
    ((-4095 : Int) ≤ 0x46d ∧ (0x46d : Int) ≤ 65535) ∧
    ((-4095 : Int) ≤ 0xc52b ∧ (0xc52b : Int) ≤ 65535) :=
  ⟨by decide, extract_ids_components_bounded pathGood 0x46d 0xc52b (by decide)⟩

/-- C3: for every pair of snapshots, possibly with duplicate identities,
print_diff computes removed as exactly the members of old absent from new
and added as exactly the members of new absent from old, by an element
membership test; each output preserves the relative order of its source
list (it is a sublist of it).  The model is a pure function of the two
inputs, so neither snapshot is affected. -/
theorem print_diff_membership_order (old new : List DevId) :
    List.Sublist (print_diff old new).removed old ∧
    List.Sublist (print_diff old new).added new ∧
    (∀ d, d ∈ (print_diff old new).removed ↔ d ∈ old ∧ ¬ d ∈ new) ∧
    (∀ d, d ∈ (print_diff old new).added ↔ d ∈ new ∧ ¬ d ∈ old) := by
  refine ⟨List.filter_sublist old, List.filter_sublist new, ?_, ?_⟩ <;>
    intro d <;> simp [print_diff, List.mem_filter]

/-- C3 witness: the characterisation instantiated on concrete snapshots
with a duplicated identity, evaluated at the identity (1, 2). -/
theorem print_diff_membership_order_witness :
    List.Sublist (print_diff [(1, 2), (1, 2), (3, 4)] [(3, 4)]).removed
      [(1, 2), (1, 2), (3, 4)] ∧
    ((1, 2) ∈ (print_diff [(1, 2), (1, 2), (3, 4)] [(3, 4)]).removed ↔
      ((1, 2) : DevId) ∈ [((1 : Int), (2 : Int)), (1, 2), (3, 4)] ∧
        ¬ ((1, 2) : DevId) ∈ [((3 : Int), (4 : Int))]) :=
  ⟨(print_diff_membership_order [(1, 2), (1, 2), (3, 4)] [(3, 4)]).1,
    (print_diff_membership_order [(1, 2), (1, 2), (3, 4)] [(3, 4)]).2.2.1 (1, 2)⟩

/-- C9: the differ is symmetric in construction: the added list of
diff(A, B) is the removed list of diff(B, A) and conversely, for all
snapshots A and B. -/
theorem print_diff_symmetric (A B : List DevId) :
    (print_diff A B).added = (print_diff B A).removed ∧
    (print_diff A B).removed = (print_diff B A).added :=
  ⟨rfl, rfl⟩

/-- C9 witness: symmetry instantiated on concrete snapshots. -/
theorem print_diff_symmetric_witness :
    (print_diff [(1, 2)] [(3, 4)]).added = (print_diff [(3, 4)] [(1, 2)]).removed ∧
    (print_diff [(1, 2)] [(3, 4)]).removed = (print_diff [(3, 4)] [(1, 2)]).added :=
  print_diff_symmetric [(1, 2)] [(3, 4)]

/-- C10: multiplicity of vanished elements is preserved: an identity absent
from new keeps its full multiplicity from old in the removed list, and an
identity absent from old keeps its full multiplicity from new in the added
list. -/
theorem print_diff_counts (old new : List DevId) (d : DevId) :
    (¬ d ∈ new → List.count d (print_diff old new).removed = List.count d old) ∧
    (¬ d ∈ old → List.count d (print_diff old new).added = List.count d new) := by
  constructor
  · intro hd
    have hp : (!(decide (d ∈ new))) = true := by simp [hd]
    exact List.count_filter hp
  · intro hd
    have hp : (!(decide (d ∈ old))) = true := by simp [hd]
    exact List.count_filter hp

/-- C10 witness: the identity (1, 2) occurs twice in old and is absent from
new; the removed list keeps both occurrences. -/
theorem print_diff_counts_witness :
    ¬ ((1, 2) : DevId) ∈ [((3 : Int), (4 : Int))] ∧
    List.count ((1, 2) : DevId) (print_diff [(1, 2), (1, 2), (3, 4)] [(3, 4)]).removed =
      List.count ((1, 2) : DevId) [((1 : Int), (2 : Int)), (1, 2), (3, 4)] :=
  ⟨by decide, (print_diff_counts [(1, 2), (1, 2), (3, 4)] [(3, 4)] (1, 2)).1 (by decide)⟩

/-- C1 counterexample: in a run whose enumeration session opened
successfully, a device path with markers but malformed hex digits makes
extract_ids raise at src/lsusb.py:175; the exception leaves get_dev_list
before the destroy call at line 180, so the handle is not released. -/
theorem destroy_skipped_on_parse_error :
    envBad.openOk = true ∧ (get_dev_list envBad).destroyed = false ∧
    (get_dev_list envBad).result = Except.error () :=
  ⟨rfl, by decide, rfl⟩

/-- C1 amended: whenever the enumeration session opens successfully and
get_dev_list returns normally (in particular on every early-terminating
error break in steps 2-4), SetupDiDestroyDeviceInfoList is reached before
the return; only a parse error propagating out of identity extraction
skips the release. -/
theorem destroyed_on_normal_return (env : OsEnv) (devs : List DevId)
    (hopen : env.openOk = true)
    (hres : (get_dev_list env).result = Except.ok devs) :
    (get_dev_list env).destroyed = true := by
  unfold get_dev_list at hres ⊢
  rw [hopen] at hres ⊢
  simp only [if_true]
  cases h : enumLoop env.script [] with
  | ok pr => rfl
  | error e =>
    rw [h] at hres
    simp at hres

/-- C1 amended witness: a run with one well-formed device returns normally
and the handle is destroyed. -/
theorem destroyed_on_normal_return_witness :
    envGood.openOk = true ∧ (get_dev_list envGood).destroyed = true :=
  ⟨rfl, destroyed_on_normal_return envGood [(0x46d, 0xc52b)] rfl rfl⟩

/-- C6: whenever SetupDiGetClassDevsW yields a null handle, get_dev_list
prints the open-failure error and returns the empty list; no exception
crosses the poll boundary, and a tracking iteration with such an
environment completes normally (the loop goes on to the next poll). -/
theorem open_failure_empty_list_loop_continues (env : OsEnv) (prev : List DevId)
    (h : env.openOk = false) :
    (get_dev_list env).result = Except.ok [] ∧
    ErrMsg.openFail ∈ (get_dev_list env).errors ∧
    trackStep prev env =
      Except.ok (if ([] : List DevId) = prev then (prev, none)
                 else ([], some (print_diff prev []))) := by
  have hrun : get_dev_list env =
      { result := Except.ok [], destroyed := false, errors := [ErrMsg.openFail] } := by
    unfold get_dev_list
    rw [h]
    simp
  refine ⟨by rw [hrun], by rw [hrun]; simp, ?_⟩
  unfold trackStep
  rw [hrun]
  by_cases he : ([] : List DevId) = prev
  · simp [he]
  · simp [he]

/-- C6 witness: with a failed session open and a nonempty retained
snapshot, the call returns the empty list, reports the error, and the
tracking iteration completes normally (reporting every device removed). -/
theorem open_failure_empty_list_loop_continues_witness :
    (get_dev_list envNoOpen).result = Except.ok [] ∧
    ErrMsg.openFail ∈ (get_dev_list envNoOpen).errors ∧
    trackStep [(1, 2)] envNoOpen =
      Except.ok (if ([] : List DevId) = [(1, 2)] then ([(1, 2)], none)
                 else ([], some (print_diff [(1, 2)] []))) :=
  open_failure_empty_list_loop_continues envNoOpen [(1, 2)] rfl

/-- C7: in tracking mode, on an iteration whose enumeration returns a list,
a diff is reported and the retained snapshot replaced exactly when the new
list differs from the retained one under full list equality (so a
reordering counts as a change); when the lists are equal nothing is
reported and the retained snapshot is unchanged. -/
theorem trackStep_reports_iff_changed (prev : List DevId) (env : OsEnv)
    (nl : List DevId) (h : (get_dev_list env).result = Except.ok nl) :
    (nl ≠ prev → trackStep prev env = Except.ok (nl, some (print_diff prev nl))) ∧
    (nl = prev → trackStep prev env = Except.ok (prev, none)) := by
  constructor
  · intro hne
    unfold trackStep
    rw [h]
    simp [hne]
  · intro he
    unfold trackStep
    rw [h]
    simp [he]

/-- C7 witness: a pure reordering of the retained snapshot counts as a
change: the new list is retained and a diff is reported. -/
theorem trackStep_reports_iff_changed_witness :
    trackStep [(1, 2), (3, 4)] envSwapped =
      Except.ok ([(3, 4), (1, 2)],
        some (print_diff [(1, 2), (3, 4)] [(3, 4), (1, 2)])) :=
  (trackStep_reports_iff_changed [(1, 2), (3, 4)] envSwapped [(3, 4), (1, 2)]
    rfl).1 (by decide)
